import Mathlib

/-!
# Verification of the logkit event parsing and aggregation pipeline

A shallow embedding of `src/logkit/parser.py` (the event parsing and
aggregation core of the repository) together with theorems settling the
behavioural claims made by the specification.

Modelling conventions:

* A log file is modelled by the list of its physical lines (what Python's
  file iteration yields, the trailing newline being removed by the
  unconditional `line.strip()` in the source).
* `json.loads` is a Python standard-library function, not code of this
  repository; it is modelled by an abstract parameter
  `loads : String → Except String PyJson` whose error case carries the
  decoder's message (`JSONDecodeError.msg`).  `PyJson` is the type of the
  values `json.loads` can return.
* `datetime.fromisoformat(...).astimezone(timezone.utc)` is likewise
  standard-library code; a parsed timestamp is modelled as an integer UTC
  instant, and the composite parse-and-normalise step by an abstract
  parameter `fromiso : String → Option Int` (`none` models the `ValueError`
  raised on an unparsable string).  Only the order of instants matters to
  the filter logic.
* A Python generator's observable behaviour is the list of values it
  yielded, followed optionally by a terminal exception; `IterResult`
  records exactly that.
* Python's `dict` preserves insertion order, so an aggregation dictionary
  is modelled as an association list in insertion order, and Python's
  stable `sorted` is modelled by the stable `List.insertionSort`
  (the output of a stable sort is uniquely determined by the key order and
  the input order, so any stable sorting algorithm is an exact model).

The source file `src/logkit/parser.py` does **not** compile as Python: the
body of `count_by_level` (lines 117-220) is a splice of fragments of
`top_src_ips` and `parse_ts`, and the stray `continue` on line 213 sits
outside every loop, which is a compile-time `SyntaxError` for the whole
module.  `iter_events`, `top_src_ips` and `parse_ts` have intact bodies and
are embedded from the source below; `count_by_level` is modelled from its
own docstring, the repository's tests and the spec (see
`count_by_level_intended`).
-/

namespace LogKit

/-- A JSON value as returned by `json.loads`: `None`, `True`/`False`, a
number, a string, a list, or a dict (kept in parse order; JSON numbers are
modelled as integers — no claim depends on float payloads). -/
inductive PyJson where
  | null
  | bool (b : Bool)
  | num (n : Int)
  | str (s : String)
  | arr (elems : List PyJson)
  | obj (fields : List (String × PyJson))

mutual

/-- Python's `repr` on a `json.loads` result (string escaping elided; the
`\x27` escapes are single-quote characters, `\x7b`/`\x7d` are braces). -/
def pyRepr : PyJson → String
  | .null => "None"
  | .bool true => "True"
  | .bool false => "False"
  | .num n => toString n
  | .str s => "\x27" ++ s ++ "\x27"
  | .arr xs => "[" ++ String.intercalate ", " (pyReprList xs) ++ "]"
  | .obj kvs => "\x7b" ++ String.intercalate ", " (pyReprFields kvs) ++ "\x7d"

/-- `repr` of each element of a list. -/
def pyReprList : List PyJson → List String
  | [] => []
  | x :: xs => pyRepr x :: pyReprList xs

/-- `repr` of each `key: value` entry of a dict. -/
def pyReprFields : List (String × PyJson) → List String
  | [] => []
  | (k, v) :: rest => ("\x27" ++ k ++ "\x27: " ++ pyRepr v) :: pyReprFields rest

end

/-- Python's `str` builtin on a `json.loads` result: the identity on
strings, `repr`-style rendering otherwise. -/
def pyStr : PyJson → String
  | .str s => s
  | v => pyRepr v

/-- `d.get(key, default)` on a dict built by `json.loads`: the last binding
of a repeated key wins, as in Python's dict construction. -/
def dictGet? (fields : List (String × PyJson)) (key : String) : Option PyJson :=
  ((fields.filter (fun kv => kv.1 == key)).getLast?).map (fun kv => kv.2)

/-- `str(d.get(key, dflt))` for a string default `dflt` (note that `str` is
the identity on the string defaults `""` and `"UNKNOWN"` used by the
source). -/
def getStr (fields : List (String × PyJson)) (key : String) (dflt : String) : String :=
  match dictGet? fields key with
  | some v => pyStr v
  | none => dflt

/-- The characters Python's `str.strip()` removes (ASCII whitespace; the
sample data is ASCII, so the extra Unicode space classes are irrelevant). -/
def pyWhitespace (c : Char) : Bool :=
  c = ' ' || c = '\t' || c = '\n' || c = '\r' || c = '\x0b' || c = '\x0c'

/-- Python's `line.strip()`. -/
def pyStrip (s : String) : String :=
  String.mk (((s.toList.dropWhile pyWhitespace).reverse.dropWhile pyWhitespace).reverse)

/-- Python's `s.lower()`, modelled character by character. -/
def pyLower (s : String) : String :=
  String.mk (s.toList.map Char.toLower)

/-- `needle in hay` on lists of characters: the contiguous-substring test. -/
def containsChars (needle : List Char) : List Char → Bool
  | [] => needle.isEmpty
  | hay@(_ :: tail) => needle.isPrefixOf hay || containsChars needle tail

/-- Python's `needle in hay` on strings. -/
def pyIn (needle hay : String) : Bool :=
  containsChars needle.toList hay.toList

/-- The `Event` dataclass of parser.py: four always-present string
fields. -/
structure Event where
  ts : String
  level : String
  msg : String
  src_ip : String
deriving Repr, DecidableEq

/-- The exceptions the embedded pipeline can raise.
`badJson` is the `ValueError(f"Bad JSON on line \x7bline_no\x7d: \x7be.msg\x7d")`
of strict mode, carrying the 1-based physical line number and the decoder's
message; `attrError` is the uncaught `AttributeError` raised by `obj.get`
when `json.loads` returned a non-dict value; `invalidTs` is the
`ValueError` raised by `datetime.fromisoformat` on an unparsable
timestamp. -/
inductive IterErr where
  | badJson (lineNo : Nat) (msg : String)
  | attrError
  | invalidTs
deriving Repr, DecidableEq

/-- The observable behaviour of one run of the `iter_events` generator:
the events it yielded, in order, and the terminal exception if it raised
rather than finishing. -/
structure IterResult where
  events : List Event
  err : Option IterErr
deriving Repr, DecidableEq

/-- `parse_ts` (parser.py:239-243): a trailing `"Z"` is replaced by
`"+00:00"` (`ts.endswith("Z")` and `ts[:-1]`, modelled on the character
list), then the string goes to `datetime.fromisoformat` and the result is
normalised to UTC — the latter two steps are the abstract `fromiso`. -/
def parse_ts (fromiso : String → Option Int) (ts : String) : Option Int :=
  let ts := if ts.toList.getLast? = some 'Z'
    then String.mk ts.toList.dropLast ++ "+00:00" else ts
  fromiso ts

/-- `since_dt = parse_ts(since) if since else None` (parser.py:57-58): a
missing or empty (falsy) argument yields no bound; a present one is parsed
eagerly, an unparsable one raising `ValueError` before any line is read. -/
def evalBound (fromiso : String → Option Int) (arg : Option String) :
    Except IterErr (Option Int) :=
  match arg with
  | none => .ok none
  | some s =>
    if s = "" then .ok none
    else
      match parse_ts fromiso s with
      | some t => .ok (some t)
      | none => .error .invalidTs

/-- The `Event(...)` construction of parser.py:78-83: reading the four
fields with `obj.get(...)` succeeds exactly when the decoded value is a
dict; on any other shape `obj.get` raises `AttributeError`, which the
`except json.JSONDecodeError` handler does not catch. -/
def buildEvent : PyJson → Except IterErr Event
  | .obj fields =>
      .ok { ts := getStr fields "ts" ""
            level := getStr fields "level" "UNKNOWN"
            msg := getStr fields "msg" ""
            src_ip := getStr fields "src_ip" "" }
  | _ => .error .attrError

/-- `since_dt and ev_ts < since_dt` (parser.py:96). -/
def beforeSince (sinceDt : Option Int) (evTs : Int) : Bool :=
  match sinceDt with
  | some s => decide (evTs < s)
  | none => false

/-- `until_dt and ev_ts > until_dt` (parser.py:100). -/
def afterUntil (untilDt : Option Int) (evTs : Int) : Bool :=
  match untilDt with
  | some u => decide (u < evTs)
  | none => false

/-- The line loop of `iter_events` (parser.py:63-114), after the `since`/
`until` arguments have been parsed: strip the line, skip it when blank,
decode it (lenient mode skipping a malformed line, strict mode aborting
with the line number and decoder message), build the `Event`, apply the
time-range filter when one is active, and yield the survivor.  `lineNo` is
the 1-based number of the next physical line. -/
def iterEventsFrom (loads : String → Except String PyJson)
    (fromiso : String → Option Int) (strict : Bool)
    (sinceDt untilDt : Option Int) : Nat → List String → IterResult
  | _, [] => ⟨[], none⟩
  | lineNo, line :: rest =>
    let stripped := pyStrip line
    if stripped = "" then
      iterEventsFrom loads fromiso strict sinceDt untilDt (lineNo + 1) rest
    else
      match loads stripped with
      | .error msg =>
        if strict then ⟨[], some (.badJson lineNo msg)⟩
        else iterEventsFrom loads fromiso strict sinceDt untilDt (lineNo + 1) rest
      | .ok obj =>
        match buildEvent obj with
        | .error e => ⟨[], some e⟩
        | .ok ev =>
          if sinceDt.isSome || untilDt.isSome then
            if ev.ts = "" then
              iterEventsFrom loads fromiso strict sinceDt untilDt (lineNo + 1) rest
            else
              match parse_ts fromiso ev.ts with
              | none => ⟨[], some .invalidTs⟩
              | some evTs =>
                if beforeSince sinceDt evTs then
                  iterEventsFrom loads fromiso strict sinceDt untilDt (lineNo + 1) rest
                else if afterUntil untilDt evTs then
                  iterEventsFrom loads fromiso strict sinceDt untilDt (lineNo + 1) rest
                else
                  let r := iterEventsFrom loads fromiso strict sinceDt untilDt (lineNo + 1) rest
                  ⟨ev :: r.events, r.err⟩
          else
            let r := iterEventsFrom loads fromiso strict sinceDt untilDt (lineNo + 1) rest
            ⟨ev :: r.events, r.err⟩

/-- `iter_events` (parser.py:26-114) over the file's physical lines: parse
the optional bounds first (an unparsable bound aborts before any line is
read), then run the line loop from line 1. -/
def iter_events (loads : String → Except String PyJson)
    (fromiso : String → Option Int) (lines : List String)
    (strict : Bool) (since untl : Option String) : IterResult :=
  match evalBound fromiso since with
  | .error e => ⟨[], some e⟩
  | .ok sinceDt =>
    match evalBound fromiso untl with
    | .error e => ⟨[], some e⟩
    | .ok untilDt => iterEventsFrom loads fromiso strict sinceDt untilDt 1 lines

/-- `needle = contains.lower() if contains else None` (parser.py:228). -/
def needleOf (contains : Option String) : Option String :=
  match contains with
  | some c => if c = "" then none else some (pyLower c)
  | none => none

/-- `needle and needle not in ev.msg.lower()` (parser.py:232): whether the
event is skipped by the case-insensitive message filter. -/
def skipByNeedle (needle : Option String) (msg : String) : Bool :=
  match needle with
  | some nd => if nd = "" then false else !(pyIn nd (pyLower msg))
  | none => false

/-- `src_ip and ev.src_ip != src_ip` (parser.py:182): whether the event is
skipped by the exact source-IP filter (an empty filter string is falsy and
filters nothing). -/
def skipBySrcIp (srcIp : Option String) (evIp : String) : Bool :=
  match srcIp with
  | some ip => if ip = "" then false else decide (evIp ≠ ip)
  | none => false

/-- `counts[k] = counts.get(k, 0) + 1` on an insertion-ordered dict:
increment the entry of `k` if present, else append `(k, 1)`. -/
def bump : List (String × Nat) → String → List (String × Nat)
  | [], k => [(k, 1)]
  | (k', v) :: rest, k =>
    if k' = k then (k', v + 1) :: rest else (k', v) :: bump rest k

/-- Python's `l[:n]` for an `int` slice bound `n`: a nonnegative bound
keeps the first `n` entries (clamped to the length); a negative bound drops
the last `|n|` entries (clamped to the empty list). -/
def pySliceTo (n : Int) (l : List α) : List α :=
  if n < 0 then l.take (l.length - (-n).toNat) else l.take n.toNat

/-- `top_src_ips` (parser.py:223-236): count occurrences per `src_ip`
among the events passing the `contains` filter, sort by count descending
(Python's stable `sorted` with `reverse=True`), and slice to the first
`n`. -/
def top_src_ips (events : List Event) (n : Int) (contains : Option String) :
    List (String × Nat) :=
  let needle := needleOf contains
  let counts := events.foldl
    (fun counts ev =>
      if skipByNeedle needle ev.msg then counts else bump counts ev.src_ip)
    []
  pySliceTo n (List.insertionSort (fun a b => b.2 ≤ a.2) counts)

/-- Modelled from the spec: `count_by_level` itself.  The source's
`count_by_level` (parser.py:117-220) is not valid Python — the stray
`continue` on line 213 is outside every loop, a `SyntaxError` that stops
the whole module from importing — and its executable statements are a
splice of fragments of `top_src_ips` and `parse_ts`.  This definition
follows the function's own docstring (parser.py:122-139), the spec's §4.2
and the repository's tests: skip events failing the exact `src_ip` filter,
then events failing the case-insensitive `contains` filter, and count the
survivors by `level` in an insertion-ordered dict. -/
def count_by_level_intended (events : List Event)
    (srcIp contains : Option String) : List (String × Nat) :=
  let needle := needleOf contains
  events.foldl
    (fun counts ev =>
      if skipBySrcIp srcIp ev.src_ip then counts
      else if skipByNeedle needle ev.msg then counts
      else bump counts ev.level)
    []

/-- Spec-side predicate: the events surviving the `contains` filter of the
aggregators (case-insensitive substring test against `msg`). -/
def passesContains (contains : Option String) (ev : Event) : Bool :=
  !(skipByNeedle (needleOf contains) ev.msg)

/-- Spec-side count: the number of distinct `src_ip` values among the
events passing the `contains` filter. -/
def distinctSrcIpCount (events : List Event) (contains : Option String) : Nat :=
  (((events.filter (passesContains contains)).map Event.src_ip).dedup).length

/-! ## Concrete sample data

A five-event fixture matching the spec's scenarios (levels INFO, WARN,
WARN, INFO, ERROR; the two WARN messages say "login failed"; one INFO
event from 10.0.0.5 mentions "heartbeat"), together with a concrete
decoder table standing in for `json.loads` and a concrete instant table
standing in for `datetime.fromisoformat` on these witnesses. -/

/-- Sample line 1 (braces written as `\x7b`/`\x7d`). -/
def sampleLine1 : String :=
  "\x7b\"ts\": \"2026-01-30T05:00:01Z\", \"level\": \"INFO\", \"msg\": \"heartbeat ok\", \"src_ip\": \"10.0.0.5\"\x7d"

/-- Sample line 2. -/
def sampleLine2 : String :=
  "\x7b\"ts\": \"2026-01-30T05:00:02Z\", \"level\": \"WARN\", \"msg\": \"login failed\", \"src_ip\": \"10.0.0.8\"\x7d"

/-- Sample line 3. -/
def sampleLine3 : String :=
  "\x7b\"ts\": \"2026-01-30T05:00:03Z\", \"level\": \"WARN\", \"msg\": \"login failed\", \"src_ip\": \"10.0.0.8\"\x7d"

/-- Sample line 4. -/
def sampleLine4 : String :=
  "\x7b\"ts\": \"2026-01-30T05:00:04Z\", \"level\": \"INFO\", \"msg\": \"user ok\", \"src_ip\": \"10.0.0.9\"\x7d"

/-- Sample line 5. -/
def sampleLine5 : String :=
  "\x7b\"ts\": \"2026-01-30T05:00:05Z\", \"level\": \"ERROR\", \"msg\": \"disk full\", \"src_ip\": \"10.0.0.9\"\x7d"

/-- The sample file: five JSON lines. -/
def sampleLines : List String :=
  [sampleLine1, sampleLine2, sampleLine3, sampleLine4, sampleLine5]

/-- The decoded object of sample line 1. -/
def sampleObj1 : List (String × PyJson) :=
  [("ts", .str "2026-01-30T05:00:01Z"), ("level", .str "INFO"),
   ("msg", .str "heartbeat ok"), ("src_ip", .str "10.0.0.5")]

/-- The decoded object of sample line 2. -/
def sampleObj2 : List (String × PyJson) :=
  [("ts", .str "2026-01-30T05:00:02Z"), ("level", .str "WARN"),
   ("msg", .str "login failed"), ("src_ip", .str "10.0.0.8")]

/-- The decoded object of sample line 3. -/
def sampleObj3 : List (String × PyJson) :=
  [("ts", .str "2026-01-30T05:00:03Z"), ("level", .str "WARN"),
   ("msg", .str "login failed"), ("src_ip", .str "10.0.0.8")]

/-- The decoded object of sample line 4. -/
def sampleObj4 : List (String × PyJson) :=
  [("ts", .str "2026-01-30T05:00:04Z"), ("level", .str "INFO"),
   ("msg", .str "user ok"), ("src_ip", .str "10.0.0.9")]

/-- The decoded object of sample line 5. -/
def sampleObj5 : List (String × PyJson) :=
  [("ts", .str "2026-01-30T05:00:05Z"), ("level", .str "ERROR"),
   ("msg", .str "disk full"), ("src_ip", .str "10.0.0.9")]

/-- A fixture line whose event has an unparsable timestamp. -/
def badTsLine : String :=
  "\x7b\"ts\": \"garbage\", \"level\": \"INFO\", \"msg\": \"odd\", \"src_ip\": \"10.0.0.6\"\x7d"

/-- The decoded object of `badTsLine`. -/
def badTsObj : List (String × PyJson) :=
  [("ts", .str "garbage"), ("level", .str "INFO"),
   ("msg", .str "odd"), ("src_ip", .str "10.0.0.6")]

/-- A fixture line whose event has no `ts` field at all. -/
def noTsLine : String :=
  "\x7b\"level\": \"INFO\", \"msg\": \"no ts\", \"src_ip\": \"10.0.0.7\"\x7d"

/-- The decoded object of `noTsLine`. -/
def noTsObj : List (String × PyJson) :=
  [("level", .str "INFO"), ("msg", .str "no ts"), ("src_ip", .str "10.0.0.7")]

/-- A concrete decoder for the fixture lines: decodes each fixture line to
its object, decodes `"[1, 2]"` to the JSON array it denotes, and reports
`"Expecting value"` (CPython's message) on anything else. -/
def sampleLoads : String → Except String PyJson := fun s =>
  if s = sampleLine1 then .ok (.obj sampleObj1)
  else if s = sampleLine2 then .ok (.obj sampleObj2)
  else if s = sampleLine3 then .ok (.obj sampleObj3)
  else if s = sampleLine4 then .ok (.obj sampleObj4)
  else if s = sampleLine5 then .ok (.obj sampleObj5)
  else if s = badTsLine then .ok (.obj badTsObj)
  else if s = noTsLine then .ok (.obj noTsObj)
  else if s = "[1, 2]" then .ok (.arr [.num 1, .num 2])
  else .error "Expecting value"

/-- A concrete instant table for the sample timestamps (each `Z` suffix
already rewritten to `+00:00` by `parse_ts`): the five sample instants and
one round instant for filter bounds, everything else unparsable. -/
def sampleIso : String → Option Int := fun s =>
  if s = "2026-01-30T05:00:00+00:00" then some 0
  else if s = "2026-01-30T05:00:01+00:00" then some 1
  else if s = "2026-01-30T05:00:02+00:00" then some 2
  else if s = "2026-01-30T05:00:03+00:00" then some 3
  else if s = "2026-01-30T05:00:04+00:00" then some 4
  else if s = "2026-01-30T05:00:05+00:00" then some 5
  else none

/-- The five sample events, as `iter_events` decodes them. -/
def sampleEvents : List Event :=
  [⟨"2026-01-30T05:00:01Z", "INFO", "heartbeat ok", "10.0.0.5"⟩,
   ⟨"2026-01-30T05:00:02Z", "WARN", "login failed", "10.0.0.8"⟩,
   ⟨"2026-01-30T05:00:03Z", "WARN", "login failed", "10.0.0.8"⟩,
   ⟨"2026-01-30T05:00:04Z", "INFO", "user ok", "10.0.0.9"⟩,
   ⟨"2026-01-30T05:00:05Z", "ERROR", "disk full", "10.0.0.9"⟩]

/-! ## Helper lemmas -/

/-- Splitting the line loop at a list append: if the prefix raises, the
suffix is never read; otherwise the suffix continues at the shifted line
number and contributes the remaining events and the terminal status. -/
theorem iterEventsFrom_append (L : String → Except String PyJson)
    (F : String → Option Int) (strict : Bool) (sd ud : Option Int)
    (xs ys : List String) (k : Nat) :
    iterEventsFrom L F strict sd ud k (xs ++ ys) =
      match (iterEventsFrom L F strict sd ud k xs).err with
      | some _ => iterEventsFrom L F strict sd ud k xs
      | none =>
        ⟨(iterEventsFrom L F strict sd ud k xs).events
           ++ (iterEventsFrom L F strict sd ud (k + xs.length) ys).events,
         (iterEventsFrom L F strict sd ud (k + xs.length) ys).err⟩ := by
  induction xs generalizing k with
  | nil => simp [iterEventsFrom]
  | cons x xs ih =>
    have harith : k + 1 + xs.length = k + (xs.length + 1) := by omega
    simp only [List.cons_append, iterEventsFrom, List.length_cons, List.append_eq]
    by_cases hstrip : pyStrip x = ""
    · simp [hstrip, ih (k + 1), harith]
    · rcases hL : L (pyStrip x) with msg | obj
      · cases strict
        · simp [hstrip, hL, ih (k + 1), harith]
        · simp [hstrip, hL]
      · rcases hB : buildEvent obj with e | ev
        · simp [hstrip, hL, hB]
        · by_cases hfil : sd.isSome = true ∨ ud.isSome = true
          · by_cases hts : ev.ts = ""
            · simp [hstrip, hL, hB, hfil, hts, ih (k + 1), harith]
            · rcases hp : parse_ts F ev.ts with _ | evTs
              · simp [hstrip, hL, hB, hfil, hts, hp]
              · by_cases hbs : beforeSince sd evTs = true
                · simp [hstrip, hL, hB, hfil, hts, hp, hbs, ih (k + 1), harith]
                · by_cases hau : afterUntil ud evTs = true
                  · simp [hstrip, hL, hB, hfil, hts, hp, hbs, hau, ih (k + 1), harith]
                  · rcases he : (iterEventsFrom L F strict sd ud (k + 1) xs).err
                    · simp [hstrip, hL, hB, hfil, hts, hp, hbs, hau, ih (k + 1), harith, he]
                    · simp [hstrip, hL, hB, hfil, hts, hp, hbs, hau, ih (k + 1), harith, he]
          · rcases he : (iterEventsFrom L F strict sd ud (k + 1) xs).err
            · simp [hstrip, hL, hB, hfil, ih (k + 1), harith, he]
            · simp [hstrip, hL, hB, hfil, ih (k + 1), harith, he]

/-- In lenient mode the result does not depend on the running line number
(only the strict-mode `badJson` error records it). -/
theorem iterEventsFrom_false_lineNo (L : String → Except String PyJson)
    (F : String → Option Int) (sd ud : Option Int)
    (lines : List String) (k k' : Nat) :
    iterEventsFrom L F false sd ud k lines
      = iterEventsFrom L F false sd ud k' lines := by
  induction lines generalizing k k' with
  | nil => rfl
  | cons x xs ih =>
    simp only [iterEventsFrom]
    by_cases hstrip : pyStrip x = ""
    · simp [hstrip, ih (k + 1) (k' + 1)]
    · rcases hL : L (pyStrip x) with msg | obj
      · simp [hstrip, hL, ih (k + 1) (k' + 1)]
      · rcases hB : buildEvent obj with e | ev
        · simp [hstrip, hL, hB]
        · by_cases hfil : sd.isSome = true ∨ ud.isSome = true
          · by_cases hts : ev.ts = ""
            · simp [hstrip, hL, hB, hfil, hts, ih (k + 1) (k' + 1)]
            · rcases hp : parse_ts F ev.ts with _ | evTs
              · simp [hstrip, hL, hB, hfil, hts, hp]
              · simp [hstrip, hL, hB, hfil, hts, hp, ih (k + 1) (k' + 1)]
          · simp [hstrip, hL, hB, hfil, ih (k + 1) (k' + 1)]

/-- One `bump` adds exactly one to the total of the counter values. -/
theorem sum_map_snd_bump (c : List (String × Nat)) (k : String) :
    ((bump c k).map Prod.snd).sum = (c.map Prod.snd).sum + 1 := by
  induction c with
  | nil => simp [bump]
  | cons kv rest ih =>
    obtain ⟨k', v⟩ := kv
    by_cases h : k' = k
    · simp [bump, h]
      omega
    · simp [bump, h, ih]
      omega

/-- The keys after a `bump`: unchanged when the key was present, the key
appended when it was new. -/
theorem map_fst_bump (c : List (String × Nat)) (k : String) :
    (bump c k).map Prod.fst =
      if k ∈ c.map Prod.fst then c.map Prod.fst else c.map Prod.fst ++ [k] := by
  induction c with
  | nil => simp [bump]
  | cons kv rest ih =>
    obtain ⟨k', v⟩ := kv
    by_cases h : k' = k
    · simp [bump, h]
    · by_cases hmem : k ∈ rest.map Prod.fst
      · simp [bump, h, ih, hmem, Ne.symm h]
      · simp [bump, h, ih, hmem, Ne.symm h]

/-- Folding `bump` over a list of keys adds the number of keys to the
total of the counter values. -/
theorem sum_map_snd_foldl_bump (ks : List String) (c : List (String × Nat)) :
    ((ks.foldl bump c).map Prod.snd).sum = (c.map Prod.snd).sum + ks.length := by
  induction ks generalizing c with
  | nil => simp
  | cons k ks ih =>
    simp only [List.foldl_cons, ih (bump c k), sum_map_snd_bump, List.length_cons]
    omega

/-- Folding `bump` over a list of keys keeps the counter keys distinct and
makes their set the union of the initial keys and the folded keys. -/
theorem foldl_bump_nodup_card (ks : List String) (c : List (String × Nat))
    (hnd : (c.map Prod.fst).Nodup) :
    ((ks.foldl bump c).map Prod.fst).Nodup ∧
      ((ks.foldl bump c).map Prod.fst).toFinset
        = (c.map Prod.fst).toFinset ∪ ks.toFinset := by
  induction ks generalizing c with
  | nil => simpa using hnd
  | cons k ks ih =>
    by_cases hmem : k ∈ c.map Prod.fst
    · have h1 : (bump c k).map Prod.fst = c.map Prod.fst := by
        rw [map_fst_bump, if_pos hmem]
      obtain ⟨n1, t1⟩ := ih (bump c k) (by rw [h1]; exact hnd)
      rw [List.foldl_cons]
      refine ⟨n1, ?_⟩
      rw [t1, h1, List.toFinset_cons]
      have hk : k ∈ (c.map Prod.fst).toFinset ∪ ks.toFinset :=
        Finset.mem_union_left _ (List.mem_toFinset.mpr hmem)
      rw [Finset.union_insert, Finset.insert_eq_self.mpr hk]
    · have h1 : (bump c k).map Prod.fst = c.map Prod.fst ++ [k] := by
        rw [map_fst_bump, if_neg hmem]
      have hnd' : ((bump c k).map Prod.fst).Nodup := by
        rw [h1, List.nodup_append]
        exact ⟨hnd, List.nodup_singleton k, by simpa [List.disjoint_singleton] using hmem⟩
      obtain ⟨n1, t1⟩ := ih (bump c k) hnd'
      rw [List.foldl_cons]
      refine ⟨n1, ?_⟩
      rw [t1, h1, List.toFinset_cons, List.toFinset_append]
      simp only [List.toFinset_cons, List.toFinset_nil]
      rw [Finset.union_insert]
      ext a
      simp only [Finset.mem_union, Finset.mem_insert, List.mem_toFinset,
        Finset.mem_singleton, Finset.not_mem_empty]
      tauto

/-- The number of counter entries after folding `bump` from the empty
dict is the number of distinct folded keys. -/
theorem length_foldl_bump (ks : List String) :
    (ks.foldl bump []).length = ks.dedup.length := by
  obtain ⟨hnd, ht⟩ := foldl_bump_nodup_card ks [] (by simp)
  calc (ks.foldl bump []).length
      = ((ks.foldl bump []).map Prod.fst).length := (List.length_map _ _).symm
    _ = ((ks.foldl bump []).map Prod.fst).toFinset.card :=
        (List.toFinset_card_of_nodup hnd).symm
    _ = ks.toFinset.card := by rw [ht]; simp
    _ = ks.dedup.length := by rw [List.card_toFinset]

/-- A fold whose step ignores the events rejected by `p` only sees the
events accepted by `p`. -/
theorem foldl_skip_filter {α : Type} (p : Event → Bool) (step : α → Event → α)
    (hstep : ∀ c ev, p ev = false → step c ev = c)
    (events : List Event) (c : α) :
    events.foldl step c = (events.filter p).foldl step c := by
  induction events generalizing c with
  | nil => rfl
  | cons ev evs ih =>
    by_cases h : p ev = true
    · simp [List.filter_cons, h, ih]
    · have h' : p ev = false := by simpa using h
      simp [List.filter_cons, h', hstep c ev h', ih]

/-- The empty string is a substring of every string. -/
theorem pyIn_empty_left (hay : String) : pyIn "" hay = true := by
  unfold pyIn
  have : ("" : String).toList = [] := rfl
  rw [this]
  induction hay.toList with
  | nil => rfl
  | cons c cs ih => simp [containsChars, List.isPrefixOf] at ih ⊢

/-- An event whose case-folded message does not contain the case-folded
needle is skipped by the `contains` filter. -/
theorem skipByNeedle_needleOf_eq_true (x msg : String)
    (h : pyIn (pyLower x) (pyLower msg) = false) :
    skipByNeedle (needleOf (some x)) msg = true := by
  by_cases hx : x = ""
  · exfalso
    rw [hx] at h
    have h0 : pyLower "" = "" := rfl
    rw [h0, pyIn_empty_left] at h
    exact Bool.true_eq_false.mp h
  · have hne : needleOf (some x) = if x = "" then none else some (pyLower x) := rfl
    rw [hne, if_neg hx]
    by_cases hnd : pyLower x = ""
    · exfalso
      rw [hnd, pyIn_empty_left] at h
      exact Bool.true_eq_false.mp h
    · simp [skipByNeedle, hnd, h]

/-- With no time filter and every non-blank line decoding to a JSON
object, the loop finishes without error and yields one event per
non-blank line. -/
theorem iterEventsFrom_no_filter_objs (L : String → Except String PyJson)
    (F : String → Option Int) (strict : Bool) (lines : List String) (k : Nat)
    (h : ∀ line ∈ lines, pyStrip line ≠ "" →
      ∃ fields, L (pyStrip line) = .ok (.obj fields)) :
    (iterEventsFrom L F strict none none k lines).err = none
    ∧ (iterEventsFrom L F strict none none k lines).events.length
        = (lines.filter (fun l => !(pyStrip l == ""))).length := by
  induction lines generalizing k with
  | nil => simp [iterEventsFrom]
  | cons x xs ih =>
    have hxs : ∀ line ∈ xs, pyStrip line ≠ "" →
        ∃ fields, L (pyStrip line) = .ok (.obj fields) :=
      fun l hl => h l (List.mem_cons_of_mem _ hl)
    by_cases hstrip : pyStrip x = ""
    · simpa [iterEventsFrom, hstrip] using ih (k + 1) hxs
    · obtain ⟨fields, hf⟩ := h x (List.mem_cons_self _ _) hstrip
      simpa [iterEventsFrom, hstrip, hf, buildEvent] using ih (k + 1) hxs

/-- With no time filter the run does not depend on the timestamp parser:
no event timestamp is ever parsed. -/
theorem iterEventsFrom_no_filter_iso (L : String → Except String PyJson)
    (F F' : String → Option Int) (strict : Bool) (lines : List String) (k : Nat) :
    iterEventsFrom L F strict none none k lines
      = iterEventsFrom L F' strict none none k lines := by
  induction lines generalizing k with
  | nil => rfl
  | cons x xs ih =>
    simp only [iterEventsFrom]
    by_cases hstrip : pyStrip x = ""
    · simp [hstrip, ih (k + 1)]
    · rcases hL : L (pyStrip x) with msg | obj
      · simp [hstrip, hL, ih (k + 1)]
      · rcases hB : buildEvent obj with e | ev
        · simp [hstrip, hL, hB]
        · simp [hstrip, hL, hB, ih (k + 1)]

/-- With no filters the intended `count_by_level` is a plain fold of
`bump` over the event levels. -/
theorem count_by_level_intended_no_filters (events : List Event) :
    count_by_level_intended events none none
      = (events.map Event.level).foldl bump [] := by
  rw [List.foldl_map]
  rfl

/-- The length of a Python slice `l[:n]`. -/
theorem length_pySliceTo {α : Type} (n : Int) (l : List α) :
    (pySliceTo n l).length
      = (if 0 ≤ n then min n.toNat l.length else l.length - (-n).toNat) := by
  unfold pySliceTo
  by_cases hneg : n < 0
  · rw [if_pos hneg, if_neg (by omega), List.length_take]
    exact Nat.min_eq_left (Nat.sub_le _ _)
  · rw [if_neg hneg, if_pos (by omega), List.length_take]

/-- On a list of events all passing the `contains` filter, the counting
fold is a plain fold of `bump` over the source IPs. -/
theorem foldl_counts_eq_bump (needle : Option String) (evs : List Event)
    (c : List (String × Nat))
    (h : ∀ ev ∈ evs, skipByNeedle needle ev.msg = false) :
    evs.foldl (fun c ev =>
        if skipByNeedle needle ev.msg then c else bump c ev.src_ip) c
      = (evs.map Event.src_ip).foldl bump c := by
  induction evs generalizing c with
  | nil => rfl
  | cons ev evs ih =>
    have h0 := h ev (List.mem_cons_self _ _)
    simp only [List.foldl_cons, List.map_cons]
    rw [if_neg (by simp [h0])]
    exact ih _ (fun e he => h e (List.mem_cons_of_mem _ he))

/-! ## Claim theorems -/

/-- C1: on the five-line sample file (levels INFO, WARN, WARN, INFO,
ERROR; no filters) counting the `iter_events` stream by level yields
INFO ↦ 2, WARN ↦ 2, ERROR ↦ 1.  The source's own `count_by_level` cannot
run at all (parser.py does not compile, see `count_by_level_intended`),
so the count is evaluated on the modelled intended aggregator. -/
theorem c1_count_by_level_sample :
    count_by_level_intended
        (iter_events sampleLoads sampleIso sampleLines false none none).events
        none none
      = [("INFO", 2), ("WARN", 2), ("ERROR", 1)] := by decide

/-- C2: with a non-empty `src_ip` argument the intended `count_by_level`
counts exactly the events whose `src_ip` equals the argument — skipping,
never erroring on, the others — and on the sample fixture
`src_ip="10.0.0.5"` with `contains="heart"` yields INFO ↦ 1. -/
theorem c2_src_ip_exact_filter (events : List Event) (ip : String)
    (contains : Option String) (hip : ip ≠ "") :
    count_by_level_intended events (some ip) contains
        = count_by_level_intended
            (events.filter (fun ev => ev.src_ip == ip)) none contains
    ∧ count_by_level_intended sampleEvents (some "10.0.0.5") (some "heart")
        = [("INFO", 1)] := by
  constructor
  · have key : ∀ (evs : List Event) (c : List (String × Nat)),
        evs.foldl (fun c ev =>
          if skipBySrcIp (some ip) ev.src_ip then c
          else if skipByNeedle (needleOf contains) ev.msg then c
          else bump c ev.level) c
        = (evs.filter (fun ev => ev.src_ip == ip)).foldl (fun c ev =>
            if skipBySrcIp none ev.src_ip then c
            else if skipByNeedle (needleOf contains) ev.msg then c
            else bump c ev.level) c := by
      intro evs
      induction evs with
      | nil => intro c; rfl
      | cons ev evs ih =>
        intro c
        by_cases hm : ev.src_ip = ip
        · have h1 : skipBySrcIp (some ip) ev.src_ip = false := by
            simp [skipBySrcIp, hip, hm]
          have h2 : ∀ y : String, skipBySrcIp none y = false := fun _ => rfl
          have h3 : skipBySrcIp (some ip) ip = false := by
            simp [skipBySrcIp, hip]
          simp [List.filter_cons, hm, h1, h2, h3, ih]
        · have h1 : skipBySrcIp (some ip) ev.src_ip = true := by
            simp [skipBySrcIp, hip, hm]
          simp [List.filter_cons, hm, h1, ih]
    exact key events []
  · decide

/-- Witness for C2 at `ip = "10.0.0.5"`, `contains = "heart"` on the
sample events. -/
theorem c2_src_ip_exact_filter_witness :
    count_by_level_intended sampleEvents (some "10.0.0.5") (some "heart")
        = count_by_level_intended
            (sampleEvents.filter (fun ev => ev.src_ip == "10.0.0.5"))
            none (some "heart") :=
  (c2_src_ip_exact_filter sampleEvents "10.0.0.5" (some "heart") (by decide)).1

/-- C3: in lenient mode a malformed line is skipped and iteration
continues (the run equals the run on the file without that line), while
in strict mode, when every earlier line processes without error, the pass
stops at the first malformed line: only the earlier events are yielded,
nothing after the line is read, and the raised error carries the line's
1-based physical number together with the decoder's message. -/
theorem c3_lenient_skips_strict_aborts (L : String → Except String PyJson)
    (F : String → Option Int) (since untl : Option String) (sd ud : Option Int)
    (pre post : List String) (bad msg : String)
    (hs : evalBound F since = .ok sd) (hu : evalBound F untl = .ok ud)
    (hbadNE : pyStrip bad ≠ "") (hbad : L (pyStrip bad) = .error msg)
    (hpre : (iterEventsFrom L F true sd ud 1 pre).err = none) :
    iter_events L F (pre ++ bad :: post) false since untl
        = iter_events L F (pre ++ post) false since untl
    ∧ iter_events L F (pre ++ bad :: post) true since untl
        = ⟨(iterEventsFrom L F true sd ud 1 pre).events,
           some (.badJson (pre.length + 1) msg)⟩ := by
  constructor
  · simp only [iter_events, hs, hu]
    rw [iterEventsFrom_append L F false sd ud pre (bad :: post) 1,
        iterEventsFrom_append L F false sd ud pre post 1]
    have hsuffix : iterEventsFrom L F false sd ud (1 + pre.length) (bad :: post)
        = iterEventsFrom L F false sd ud (1 + pre.length) post := by
      have h1 : iterEventsFrom L F false sd ud (1 + pre.length) (bad :: post)
          = iterEventsFrom L F false sd ud (1 + pre.length + 1) post := by
        simp [iterEventsFrom, hbadNE, hbad]
      rw [h1]
      exact iterEventsFrom_false_lineNo L F sd ud post _ _
    rw [hsuffix]
  · simp only [iter_events, hs, hu]
    rw [iterEventsFrom_append L F true sd ud pre (bad :: post) 1, hpre]
    have hsuffix : iterEventsFrom L F true sd ud (1 + pre.length) (bad :: post)
        = ⟨[], some (.badJson (1 + pre.length) msg)⟩ := by
      simp [iterEventsFrom, hbadNE, hbad]
    rw [hsuffix]
    simp [Nat.add_comm]

/-- Witness for C3: the sample decoder on `[sampleLine1, "notjson",
sampleLine2]`, no time bounds. -/
theorem c3_lenient_skips_strict_aborts_witness :
    iter_events sampleLoads sampleIso ([sampleLine1] ++ "notjson" :: [sampleLine2])
        false none none
      = iter_events sampleLoads sampleIso ([sampleLine1] ++ [sampleLine2])
        false none none
    ∧ iter_events sampleLoads sampleIso ([sampleLine1] ++ "notjson" :: [sampleLine2])
        true none none
      = ⟨(iterEventsFrom sampleLoads sampleIso true none none 1 [sampleLine1]).events,
         some (.badJson ([sampleLine1].length + 1) "Expecting value")⟩ :=
  c3_lenient_skips_strict_aborts sampleLoads sampleIso none none none none
    [sampleLine1] [sampleLine2] "notjson" "Expecting value"
    rfl rfl (by decide) rfl (by decide)

/-- C4 counterexample: with two distinct source IPs and `n = -1`,
`top_src_ips` returns one entry, not the empty list the claim's
"every n ≤ 0 yields []" predicts — Python's negative slice bound drops
entries from the end instead. -/
theorem c4_negative_n_counterexample :
    top_src_ips [⟨"", "INFO", "a", "10.0.0.1"⟩, ⟨"", "INFO", "b", "10.0.0.2"⟩]
        (-1) none
      = [("10.0.0.1", 1)]
    ∧ top_src_ips [⟨"", "INFO", "a", "10.0.0.1"⟩, ⟨"", "INFO", "b", "10.0.0.2"⟩]
        (-1) none ≠ [] := by decide

/-- C4 (amended): `top_src_ips` returns a list whose counts are
non-increasing and whose length is `min n distinct` for `n ≥ 0` (where
`distinct` is the number of distinct source IPs among events passing the
`contains` filter) — so `n = 0` gives `[]` and a large `n` gives all of
them — while a negative `n` drops the last `|n|` entries, leaving
`distinct - |n|` clamped at zero. -/
theorem c4_amended_length_sorted (events : List Event) (n : Int)
    (contains : Option String) :
    (top_src_ips events n contains).length
        = (if 0 ≤ n then min n.toNat (distinctSrcIpCount events contains)
           else distinctSrcIpCount events contains - (-n).toNat)
    ∧ ((top_src_ips events n contains).map Prod.snd).Sorted (fun a b => b ≤ a) := by
  have hstep : ∀ (c : List (String × Nat)) (ev : Event),
      passesContains contains ev = false →
      (if skipByNeedle (needleOf contains) ev.msg then c else bump c ev.src_ip) = c := by
    intro c ev hev
    have h1 : skipByNeedle (needleOf contains) ev.msg = true := by
      unfold passesContains at hev
      simpa using hev
    rw [if_pos h1]
  have hfoldl :
      events.foldl (fun c ev =>
        if skipByNeedle (needleOf contains) ev.msg then c else bump c ev.src_ip) []
      = ((events.filter (passesContains contains)).map Event.src_ip).foldl bump [] := by
    rw [foldl_skip_filter (passesContains contains) _ hstep events []]
    exact foldl_counts_eq_bump _ _ _ (fun ev hev => by
      have h2 := (List.mem_filter.mp hev).2
      unfold passesContains at h2
      simpa using h2)
  have hcountslen :
      (events.foldl (fun c ev =>
        if skipByNeedle (needleOf contains) ev.msg then c else bump c ev.src_ip) []).length
      = distinctSrcIpCount events contains := by
    rw [hfoldl, length_foldl_bump]
    rfl
  haveI htot : IsTotal (String × Nat) (fun a b => b.2 ≤ a.2) :=
    ⟨fun a b => le_total b.2 a.2⟩
  haveI htr : IsTrans (String × Nat) (fun a b => b.2 ≤ a.2) :=
    ⟨fun a b c h1 h2 => le_trans h2 h1⟩
  constructor
  · simp only [top_src_ips]
    rw [length_pySliceTo]
    rw [(List.perm_insertionSort (fun a b : String × Nat => b.2 ≤ a.2) _).length_eq,
      hcountslen]
  · simp only [top_src_ips]
    have hsorted := List.sorted_insertionSort (fun a b : String × Nat => b.2 ≤ a.2)
      (events.foldl (fun c ev =>
        if skipByNeedle (needleOf contains) ev.msg then c else bump c ev.src_ip) [])
    have hsub : List.Sublist
        (pySliceTo n (List.insertionSort (fun a b : String × Nat => b.2 ≤ a.2)
          (events.foldl (fun c ev =>
            if skipByNeedle (needleOf contains) ev.msg then c else bump c ev.src_ip) [])))
        (List.insertionSort (fun a b : String × Nat => b.2 ≤ a.2)
          (events.foldl (fun c ev =>
            if skipByNeedle (needleOf contains) ev.msg then c else bump c ev.src_ip) [])) := by
      unfold pySliceTo
      split
      · exact List.take_sublist _ _
      · exact List.take_sublist _ _
    exact List.pairwise_map.mpr (List.Pairwise.sublist hsub hsorted)

/-- C5: for a file whose non-blank lines all decode to JSON objects and
with no filters anywhere, the pass finishes without error and the level
counts (on the modelled intended `count_by_level` — the source's cannot
run) sum to the number of non-blank lines. -/
theorem c5_counts_sum_nonblank (L : String → Except String PyJson)
    (F : String → Option Int) (lines : List String)
    (h : ∀ line ∈ lines, pyStrip line ≠ "" →
      ∃ fields, L (pyStrip line) = .ok (.obj fields)) :
    (iter_events L F lines false none none).err = none
    ∧ ((count_by_level_intended
          (iter_events L F lines false none none).events none none).map Prod.snd).sum
        = (lines.filter (fun l => !(pyStrip l == ""))).length := by
  obtain ⟨he, hlen⟩ := iterEventsFrom_no_filter_objs L F false lines 1 h
  have hev : iter_events L F lines false none none
      = iterEventsFrom L F false none none 1 lines := rfl
  refine ⟨by rw [hev]; exact he, ?_⟩
  rw [hev, count_by_level_intended_no_filters, sum_map_snd_foldl_bump]
  simpa using hlen

/-- Witness for C5 on the two-line sample file. -/
theorem c5_counts_sum_nonblank_witness :
    (iter_events sampleLoads sampleIso [sampleLine1, sampleLine2] false none none).err
      = none
    ∧ ((count_by_level_intended
          (iter_events sampleLoads sampleIso [sampleLine1, sampleLine2]
            false none none).events none none).map Prod.snd).sum
        = ([sampleLine1, sampleLine2].filter (fun l => !(pyStrip l == ""))).length :=
  c5_counts_sum_nonblank sampleLoads sampleIso [sampleLine1, sampleLine2] (by
    intro line hl hne
    simp only [List.mem_cons, List.not_mem_nil, or_false] at hl
    rcases hl with h | h
    · exact ⟨sampleObj1, by subst h; rfl⟩
    · exact ⟨sampleObj2, by subst h; rfl⟩)

/-- C6 counterexample: the line `"[1, 2]"` is syntactically valid JSON —
the decoder returns the array it denotes — yet `iter_events` fails on it
even in lenient mode (`obj.get` on a non-dict raises an uncaught
`AttributeError`) and no Event is constructed, refuting "the decoder
never fails due to a wrong JSON shape". -/
theorem c6_nonobject_counterexample :
    sampleLoads "[1, 2]" = .ok (.arr [.num 1, .num 2])
    ∧ iter_events sampleLoads sampleIso ["[1, 2]"] false none none
        = ⟨[], some .attrError⟩ :=
  ⟨rfl, by decide⟩

/-- C6 (amended): for every line that decodes to a JSON **object** the
Event construction never fails, whatever the field values are: a missing
`ts`/`level`/`msg`/`src_ip` becomes `""`/`"UNKNOWN"`/`""`/`""`, and a
present value is rendered with Python's `str`; with no time filter the
event is yielded ahead of the rest of the file.  (A syntactically valid
line whose top-level value is not an object aborts the pass instead, see
the counterexample.) -/
theorem c6_object_shape_tolerance (L : String → Except String PyJson)
    (F : String → Option Int) (line : String) (rest : List String)
    (fields : List (String × PyJson))
    (hne : pyStrip line ≠ "") (hok : L (pyStrip line) = .ok (.obj fields)) :
    ∃ ev : Event,
      buildEvent (.obj fields) = .ok ev
      ∧ iter_events L F (line :: rest) false none none
          = ⟨ev :: (iter_events L F rest false none none).events,
             (iter_events L F rest false none none).err⟩
      ∧ ev.ts = getStr fields "ts" ""
      ∧ ev.level = getStr fields "level" "UNKNOWN"
      ∧ ev.msg = getStr fields "msg" ""
      ∧ ev.src_ip = getStr fields "src_ip" "" := by
  refine ⟨⟨getStr fields "ts" "", getStr fields "level" "UNKNOWN",
    getStr fields "msg" "", getStr fields "src_ip" ""⟩, rfl, ?_, rfl, rfl, rfl, rfl⟩
  have hev : iter_events L F (line :: rest) false none none
      = iterEventsFrom L F false none none 1 (line :: rest) := rfl
  have hev2 : iter_events L F rest false none none
      = iterEventsFrom L F false none none 1 rest := rfl
  rw [hev, hev2]
  have hstep : iterEventsFrom L F false none none 1 (line :: rest)
      = ⟨(⟨getStr fields "ts" "", getStr fields "level" "UNKNOWN",
          getStr fields "msg" "", getStr fields "src_ip" ""⟩ : Event)
            :: (iterEventsFrom L F false none none 2 rest).events,
         (iterEventsFrom L F false none none 2 rest).err⟩ := by
    simp [iterEventsFrom, hne, hok, buildEvent]
  rw [hstep, iterEventsFrom_false_lineNo L F none none rest 2 1]

/-- Witness for C6 on the first sample line alone. -/
theorem c6_object_shape_tolerance_witness :
    ∃ ev : Event,
      buildEvent (.obj sampleObj1) = .ok ev
      ∧ iter_events sampleLoads sampleIso (sampleLine1 :: []) false none none
          = ⟨ev :: (iter_events sampleLoads sampleIso [] false none none).events,
             (iter_events sampleLoads sampleIso [] false none none).err⟩
      ∧ ev.ts = getStr sampleObj1 "ts" ""
      ∧ ev.level = getStr sampleObj1 "level" "UNKNOWN"
      ∧ ev.msg = getStr sampleObj1 "msg" ""
      ∧ ev.src_ip = getStr sampleObj1 "src_ip" "" :=
  c6_object_shape_tolerance sampleLoads sampleIso sampleLine1 [] sampleObj1
    (by decide) rfl

/-- C7: an unparsable `since` or `until` argument makes the whole pass the
bare `InvalidTimestamp` failure whatever the file's lines are (so it is
raised before any line is read), and with a time filter active an event
whose non-empty `ts` does not parse aborts the pass with
`InvalidTimestamp` even in lenient mode — nothing is yielded from the
offending line on, whatever follows it. -/
theorem c7_invalid_timestamp_fatal (L : String → Except String PyJson)
    (F : String → Option Int) :
    (∀ (lines : List String) (strict : Bool) (untl : Option String) (s : String),
        s ≠ "" → parse_ts F s = none →
        iter_events L F lines strict (some s) untl = ⟨[], some .invalidTs⟩)
    ∧ (∀ (lines : List String) (strict : Bool) (since : Option String)
         (sd : Option Int) (u : String),
        evalBound F since = .ok sd → u ≠ "" → parse_ts F u = none →
        iter_events L F lines strict since (some u) = ⟨[], some .invalidTs⟩)
    ∧ (∀ (line : String) (rest : List String) (fields : List (String × PyJson))
         (since untl : Option String) (sd ud : Option Int),
        evalBound F since = .ok sd → evalBound F untl = .ok ud →
        (sd.isSome || ud.isSome) = true →
        pyStrip line ≠ "" → L (pyStrip line) = .ok (.obj fields) →
        getStr fields "ts" "" ≠ "" →
        parse_ts F (getStr fields "ts" "") = none →
        iter_events L F (line :: rest) false since untl
          = ⟨[], some .invalidTs⟩) := by
  refine ⟨?_, ?_, ?_⟩
  · intro lines strict untl s hsne hparse
    have hbound : evalBound F (some s) = .error .invalidTs := by
      simp [evalBound, hsne, hparse]
    simp [iter_events, hbound]
  · intro lines strict since sd u hsince hune hparse
    have hbound : evalBound F (some u) = .error .invalidTs := by
      simp [evalBound, hune, hparse]
    simp [iter_events, hsince, hbound]
  · intro line rest fields since untl sd ud hsince huntl hfil hne hok hts hparse
    simp only [iter_events, hsince, huntl]
    simp [iterEventsFrom, hne, hok, buildEvent, hfil, hts, hparse]

/-- Witness for C7: a bad `since`, a bad `until`, and a lenient pass over
an event whose `ts` is `"garbage"` under an active `since` filter. -/
theorem c7_invalid_timestamp_fatal_witness :
    iter_events sampleLoads sampleIso [sampleLine1] false (some "garbage") none
        = ⟨[], some .invalidTs⟩
    ∧ iter_events sampleLoads sampleIso [sampleLine1] false none (some "garbage")
        = ⟨[], some .invalidTs⟩
    ∧ iter_events sampleLoads sampleIso [badTsLine, sampleLine2] false
        (some "2026-01-30T05:00:00Z") none = ⟨[], some .invalidTs⟩ :=
  ⟨(c7_invalid_timestamp_fatal sampleLoads sampleIso).1 [sampleLine1] false none
      "garbage" (by decide) rfl,
   (c7_invalid_timestamp_fatal sampleLoads sampleIso).2.1 [sampleLine1] false none
      none "garbage" rfl (by decide) rfl,
   (c7_invalid_timestamp_fatal sampleLoads sampleIso).2.2 badTsLine [sampleLine2]
      badTsObj (some "2026-01-30T05:00:00Z") none (some 0) none rfl rfl rfl
      (by decide) rfl (by decide) rfl⟩

/-- C8: with a time filter active an event whose `ts` is the empty string
is dropped — the line contributes nothing and the loop moves on — while
with no time filter it is yielded like any other event and its `ts` is
never parsed: the whole run is independent of the timestamp parser. -/
theorem c8_empty_ts_drop_or_yield (L : String → Except String PyJson)
    (F : String → Option Int) :
    (∀ (strict : Bool) (since untl : Option String) (sd ud : Option Int)
       (line : String) (rest : List String) (fields : List (String × PyJson)),
        evalBound F since = .ok sd → evalBound F untl = .ok ud →
        (sd.isSome || ud.isSome) = true →
        pyStrip line ≠ "" → L (pyStrip line) = .ok (.obj fields) →
        getStr fields "ts" "" = "" →
        iter_events L F (line :: rest) strict since untl
          = iterEventsFrom L F strict sd ud 2 rest)
    ∧ (∀ (strict : Bool) (line : String) (rest : List String)
         (fields : List (String × PyJson)) (ev : Event),
        pyStrip line ≠ "" → L (pyStrip line) = .ok (.obj fields) →
        buildEvent (.obj fields) = .ok ev →
        iter_events L F (line :: rest) strict none none
          = ⟨ev :: (iterEventsFrom L F strict none none 2 rest).events,
             (iterEventsFrom L F strict none none 2 rest).err⟩)
    ∧ (∀ (F' : String → Option Int) (lines : List String) (strict : Bool),
        iter_events L F lines strict none none
          = iter_events L F' lines strict none none) := by
  refine ⟨?_, ?_, ?_⟩
  · intro strict since untl sd ud line rest fields hsince huntl hfil hne hok hts
    simp only [iter_events, hsince, huntl]
    simp [iterEventsFrom, hne, hok, buildEvent, hfil, hts]
  · intro strict line rest fields ev hne hok hbuild
    have hev : iter_events L F (line :: rest) strict none none
        = iterEventsFrom L F strict none none 1 (line :: rest) := rfl
    rw [hev]
    simp [iterEventsFrom, hne, hok, hbuild]
  · intro F' lines strict
    have h1 : iter_events L F lines strict none none
        = iterEventsFrom L F strict none none 1 lines := rfl
    have h2 : iter_events L F' lines strict none none
        = iterEventsFrom L F' strict none none 1 lines := rfl
    rw [h1, h2]
    exact iterEventsFrom_no_filter_iso L F F' strict lines 1

/-- Witness for C8: the `ts`-less fixture line dropped under a `since`
filter, yielded without one, and parser-independence on a sample line. -/
theorem c8_empty_ts_drop_or_yield_witness :
    iter_events sampleLoads sampleIso [noTsLine, sampleLine1] false
        (some "2026-01-30T05:00:00Z") none
      = iterEventsFrom sampleLoads sampleIso false (some 0) none 2 [sampleLine1]
    ∧ iter_events sampleLoads sampleIso [noTsLine] false none none
        = ⟨(⟨"", "INFO", "no ts", "10.0.0.7"⟩ : Event)
            :: (iterEventsFrom sampleLoads sampleIso false none none 2 []).events,
           (iterEventsFrom sampleLoads sampleIso false none none 2 []).err⟩
    ∧ iter_events sampleLoads sampleIso [sampleLine1] false none none
        = iter_events sampleLoads (fun _ => none) [sampleLine1] false none none :=
  ⟨(c8_empty_ts_drop_or_yield sampleLoads sampleIso).1 false
      (some "2026-01-30T05:00:00Z") none (some 0) none noTsLine [sampleLine1]
      noTsObj rfl rfl rfl (by decide) rfl rfl,
   (c8_empty_ts_drop_or_yield sampleLoads sampleIso).2.1 false noTsLine []
      noTsObj ⟨"", "INFO", "no ts", "10.0.0.7"⟩ (by decide) rfl rfl,
   (c8_empty_ts_drop_or_yield sampleLoads sampleIso).2.2 (fun _ => none)
      [sampleLine1] false⟩

/-- C9: the `contains` filter is idempotent: restricting the event list to
those whose case-folded `msg` contains the case-folded needle and then
aggregating with the same `contains` argument — with `top_src_ips`, and
with the modelled intended `count_by_level` — equals aggregating the
original list once. -/
theorem c9_contains_idempotent (events : List Event) (x : String) (n : Int)
    (srcIp : Option String) :
    top_src_ips (events.filter (fun ev => pyIn (pyLower x) (pyLower ev.msg)))
        n (some x)
      = top_src_ips events n (some x)
    ∧ count_by_level_intended
        (events.filter (fun ev => pyIn (pyLower x) (pyLower ev.msg)))
        srcIp (some x)
      = count_by_level_intended events srcIp (some x) := by
  constructor
  · simp only [top_src_ips]
    rw [foldl_skip_filter (fun ev => pyIn (pyLower x) (pyLower ev.msg))
      (fun counts ev =>
        if skipByNeedle (needleOf (some x)) ev.msg then counts
        else bump counts ev.src_ip)
      (fun c ev hev => by
        show (if skipByNeedle (needleOf (some x)) ev.msg then c
          else bump c ev.src_ip) = c
        rw [if_pos (skipByNeedle_needleOf_eq_true x ev.msg hev)])
      events []]
  · simp only [count_by_level_intended]
    rw [foldl_skip_filter (fun ev => pyIn (pyLower x) (pyLower ev.msg))
      (fun counts ev =>
        if skipBySrcIp srcIp ev.src_ip then counts
        else if skipByNeedle (needleOf (some x)) ev.msg then counts
        else bump counts ev.level)
      (fun c ev hev => by
        show (if skipBySrcIp srcIp ev.src_ip then c
          else if skipByNeedle (needleOf (some x)) ev.msg then c
          else bump c ev.level) = c
        have hskip := skipByNeedle_needleOf_eq_true x ev.msg hev
        by_cases hsrc : skipBySrcIp srcIp ev.src_ip = true
        · rw [if_pos hsrc]
        · rw [if_neg hsrc, if_pos hskip])
      events []]

/-- C10: the empty string passed for an optional filter argument behaves
exactly like an absent argument: `iter_events` with `since=""` or
`until=""` applies no time filter and raises no `InvalidTimestamp`,
`top_src_ips` with `contains=""` filters nothing, and the intended
`count_by_level` with `contains=""` or `src_ip=""` filters nothing. -/
theorem c10_empty_string_filter_args :
    (∀ (L : String → Except String PyJson) (F : String → Option Int)
       (lines : List String) (strict : Bool) (untl : Option String),
       iter_events L F lines strict (some "") untl
         = iter_events L F lines strict none untl)
    ∧ (∀ (L : String → Except String PyJson) (F : String → Option Int)
       (lines : List String) (strict : Bool) (since : Option String),
       iter_events L F lines strict since (some "")
         = iter_events L F lines strict since none)
    ∧ (∀ (events : List Event) (n : Int),
       top_src_ips events n (some "") = top_src_ips events n none)
    ∧ (∀ (events : List Event) (srcIp : Option String),
       count_by_level_intended events srcIp (some "")
         = count_by_level_intended events srcIp none)
    ∧ (∀ (events : List Event) (contains : Option String),
       count_by_level_intended events (some "") contains
         = count_by_level_intended events none contains) := by
  refine ⟨fun L F lines strict untl => rfl, fun L F lines strict since => ?_,
    fun events n => rfl, fun events srcIp => rfl, fun events contains => rfl⟩
  unfold iter_events
  rcases h : evalBound F since with e | sd
  · rfl
  · rfl

end LogKit
